import Mathlib

/-!
Shallow embedding of the Schematic Record Store (`MySQLDatabase` in the
repository source).  The `accounting` table is modelled as a list of rows
together with the auto-increment counter; every method of the class becomes a
pure function over that state.  External effects are made explicit:
`Date.now()` becomes a parameter `now : Int` (and, for the bulk expiry sweep
that calls `Date.now()` once per row update, a stream `times : Nat → Int` of
the successive clock reads), and the nanoid generator
`customAlphabet('0123456789abcdef', 32)` becomes a stream
`keys : Nat → String` of candidate keys, each assumed to be a 32-character
lowercase-hex string.
-/

deriving instance DecidableEq for Except

/-- One row of the `accounting` table, with the column types declared by
`migrate` (`id INT AUTO_INCREMENT PRIMARY KEY`, `expired BIGINT NULL`, the
nullable metadata columns as `Option`). -/
structure Row where
  id : Nat
  download_key : String
  delete_key : String
  filename : String
  last_accessed : Int
  expired : Option Int
  uploaded_by : Option String
  schem_type : Option String
  pos1 : Option String
  pos2 : Option String
deriving DecidableEq

/-- The `SchematicRecord` object shape produced by `transformRowToRecord`.
JavaScript `Date` values are modelled by their millisecond value; `undefined`
optional fields are `none`. -/
structure SchematicRecord where
  id : Nat
  downloadKey : String
  deleteKey : String
  fileName : String
  expired : Option Int
  last_accessed : Option Int
  uploader : Option String
  schem_type : Option String
  pos1 : Option String
  pos2 : Option String
deriving DecidableEq

/-- The database state: the rows of `accounting` plus the next
auto-increment id. -/
structure DB where
  rows : List Row
  nextId : Nat
deriving DecidableEq

/-- JavaScript truthiness of a nullable integer column value:
`null`/`undefined` and `0` are falsy. -/
def jsTruthyInt : Option Int → Bool
  | none => false
  | some n => n != 0

/-- `MySQLDatabase.transformRowToRecord`: maps a row to a `SchematicRecord`.
Note that the source maps the record's `pos2` from `row.pos1`
(`pos2: row.pos1`), and uses JavaScript truthiness on `expired` and
`last_accessed` (`row.expired ? new Date(...) : undefined`). -/
def transformRowToRecord (row : Row) : SchematicRecord :=
  { id := row.id
    downloadKey := row.download_key
    deleteKey := row.delete_key
    fileName := row.filename
    expired := if jsTruthyInt row.expired then row.expired else none
    last_accessed := if row.last_accessed != 0 then some row.last_accessed else none
    uploader := row.uploaded_by
    schem_type := row.schem_type
    pos1 := row.pos1
    pos2 := row.pos1 }

/-- `getAllRecords`: `SELECT * FROM accounting`, mapped through
`transformRowToRecord`. -/
def getAllRecords (db : DB) : List SchematicRecord :=
  db.rows.map transformRowToRecord

/-- `getAllUnexpiredRecords`: `SELECT * FROM accounting WHERE expired IS
NULL`, mapped through `transformRowToRecord`. -/
def getAllUnexpiredRecords (db : DB) : List SchematicRecord :=
  (db.rows.filter (fun r => r.expired.isNone)).map transformRowToRecord

/-- `getSchematicRecordByDeleteKey`: first row with the given `delete_key`,
or a not-found error. -/
def getSchematicRecordByDeleteKey (db : DB) (deleteKey : String) :
    Except String SchematicRecord :=
  match db.rows.find? (fun r => r.delete_key == deleteKey) with
  | none => Except.error "No data found for passed delete key"
  | some r => Except.ok (transformRowToRecord r)

/-- `getSchematicRecordByDownloadKey`: first row with the given
`download_key`, or a not-found error. -/
def getSchematicRecordByDownloadKey (db : DB) (downloadKey : String) :
    Except String SchematicRecord :=
  match db.rows.find? (fun r => r.download_key == downloadKey) with
  | none => Except.error "No data found for passed download key"
  | some r => Except.ok (transformRowToRecord r)

/-- Effect of `UPDATE accounting SET expired = ? WHERE id = ?`. -/
def updateExpired (rows : List Row) (rid : Nat) (t : Int) : List Row :=
  rows.map (fun r => if r.id == rid then { r with expired := some t } else r)

/-- `expireSchematicRecord`: runs the `UPDATE` (setting `expired` to the
current time on every row matching the id) and then reports an error when no
row was affected.  The second component is the thrown error message, if
any. -/
def expireSchematicRecord (db : DB) (now : Int) (recordId : Nat) :
    DB × Option String :=
  let affectedRows := (db.rows.filter (fun r => r.id == recordId)).length
  ({ db with rows := updateExpired db.rows recordId now },
    if affectedRows < 1 then
      some "Failed to expire schematic - No schematic exists with passed id"
    else none)

/-- `storeSchematicRecord`: `INSERT INTO accounting (filename, download_key,
delete_key, last_accessed, uploaded_by, schem_type, pos1, pos2) VALUES
(...)` with `last_accessed` set to `Date.now()`; the `id` column is
auto-incremented and `expired` is left NULL.  The method returns the input
`record` unchanged (`return record;`). -/
def storeSchematicRecord (db : DB) (now : Int) (record : SchematicRecord) :
    DB × SchematicRecord :=
  ({ rows := db.rows ++
      [{ id := db.nextId
         download_key := record.downloadKey
         delete_key := record.deleteKey
         filename := record.fileName
         last_accessed := now
         expired := none
         uploaded_by := record.uploader
         schem_type := record.schem_type
         pos1 := record.pos1
         pos2 := record.pos2 }]
     nextId := db.nextId + 1 },
   record)

/-- The `WHERE last_accessed <= ? AND expired IS NULL` selection used by the
bulk expiry sweep. -/
def eligibleRow (cutoff : Int) (r : Row) : Bool :=
  decide (r.last_accessed ≤ cutoff) && r.expired.isNone

/-- The sweep's update loop: for each selected record, in order, run
`UPDATE accounting SET expired = ? WHERE id = ?` with a fresh `Date.now()`
read (`times i` is the i-th read). -/
def applyExpiry (rows : List Row) (recs : List SchematicRecord)
    (times : Nat → Int) (i : Nat) : List Row :=
  match recs with
  | [] => rows
  | rec :: rest => applyExpiry (updateExpired rows rec.id (times i)) rest times (i + 1)

/-- `expireSchematicRecords(milliseconds)`: computes `cutoff = now -
milliseconds`, selects the unexpired rows with `last_accessed <= cutoff`,
maps them to records, returns `[]` immediately when none were selected, and
otherwise updates each selected id with its own `Date.now()` read and
returns the pre-update records. -/
def expireSchematicRecords (db : DB) (now : Int) (times : Nat → Int)
    (milliseconds : Int) : DB × List SchematicRecord :=
  let cutoff := now - milliseconds
  let records := (db.rows.filter (eligibleRow cutoff)).map transformRowToRecord
  if records.isEmpty then (db, [])
  else ({ db with rows := applyExpiry db.rows records times 0 }, records)

/-- The two key columns `generateUniqueKey` can be pointed at. -/
inductive Column where
  | delete_key
  | download_key
deriving DecidableEq

/-- Reads the column a `Column` names from a row. -/
def colOf : Column → Row → String
  | Column.delete_key, r => r.delete_key
  | Column.download_key, r => r.download_key

/-- The `while (iterations++ < maxIterations)` loop of `generateUniqueKey`:
the i-th iteration draws candidate `keys i`, runs `SELECT id FROM accounting
WHERE <column> = ? LIMIT 1`, and returns the candidate when no row matched;
when the bound is exhausted it throws.  `fuel` is the number of iterations
still allowed, `maxIterations - iterations` in the source's counting. -/
def generateUniqueKeyLoop (db : DB) (keys : Nat → String) (column : Column) :
    (iterations fuel : Nat) → Except String String
  | _, 0 => Except.error "Failed to generate unique key"
  | iterations, fuel + 1 =>
    let key := keys iterations
    if (db.rows.filter (fun r => colOf column r == key)).isEmpty then
      Except.ok key
    else
      generateUniqueKeyLoop db keys column (iterations + 1) fuel

/-- `generateUniqueKey(column, maxIterations)`, starting from iteration 0. -/
def generateUniqueKey (db : DB) (keys : Nat → String) (column : Column)
    (maxIterations : Nat) : Except String String :=
  generateUniqueKeyLoop db keys column 0 maxIterations

/-- `generateDeletionKey(maxIterations)`. -/
def generateDeletionKey (db : DB) (keys : Nat → String)
    (maxIterations : Nat) : Except String String :=
  generateUniqueKey db keys Column.delete_key maxIterations

/-- `generateDownloadKey(maxIterations)`. -/
def generateDownloadKey (db : DB) (keys : Nat → String)
    (maxIterations : Nat) : Except String String :=
  generateUniqueKey db keys Column.download_key maxIterations

/-- The nanoid alphabet `'0123456789abcdef'`. -/
def HEX_ALPHABET : List Char := "0123456789abcdef".data

/-- A 32-character string over the lowercase-hex alphabet: the shape of
every candidate produced by `ID_GENERATOR = customAlphabet('0123456789abcdef',
32)`. -/
def isHexKey32 (s : String) : Prop :=
  s.length = 32 ∧ ∀ c ∈ s.data, c ∈ HEX_ALPHABET

instance (s : String) : Decidable (isHexKey32 s) := by
  unfold isHexKey32; infer_instance

/-- First index in a list satisfying a predicate (the order in which the
sweep's update loop reaches each selected row). -/
def findIdxBy (p : α → Bool) : List α → Option Nat
  | [] => none
  | a :: as => if p a then some 0 else (findIdxBy p as).map (· + 1)

/-! Concrete states used to exercise the operations. -/

/-- A row with the given id, keys, last-access time and expiry, and fixed
metadata. -/
def mkRow (i : Nat) (dk delk : String) (la : Int) (ex : Option Int) : Row :=
  { id := i
    download_key := dk
    delete_key := delk
    filename := "f"
    last_accessed := la
    expired := ex
    uploaded_by := none
    schem_type := none
    pos1 := none
    pos2 := none }

/-- A stored row whose `pos1` and `pos2` differ. -/
def rowC1 : Row :=
  { mkRow 1 "d" "k" 1000 none with pos1 := some "1,2,3", pos2 := some "4,5,6" }

/-- A store holding just `rowC1`. -/
def dbC1 : DB := { rows := [rowC1], nextId := 2 }

/-- An old unexpired row (eligible at cutoff 10). -/
def rowOld : Row := mkRow 1 "d1" "k1" 10 none

/-- A recent unexpired row. -/
def rowNew : Row := mkRow 2 "d2" "k2" 1000 none

/-- A row whose `expired` field is already set. -/
def rowExp : Row := mkRow 3 "d3" "k3" 10 (some 5)

/-- A store with one eligible, one recent and one already-expired row. -/
def dbW : DB := { rows := [rowOld, rowNew, rowExp], nextId := 4 }

/-- A store holding only the already-expired row. -/
def dbC2 : DB := { rows := [rowExp], nextId := 4 }

/-- The clock-read stream used in concrete sweeps: strictly increasing, so
successive updates get distinct timestamps. -/
def timesW : Nat → Int := fun j => 200 + j

/-- An input record carrying its own id and last-access time. -/
def recC3 : SchematicRecord :=
  { id := 7
    downloadKey := "d9"
    deleteKey := "k9"
    fileName := "g"
    expired := none
    last_accessed := some 99
    uploader := none
    schem_type := none
    pos1 := none
    pos2 := none }

/-- The empty store. -/
def dbEmpty : DB := { rows := [], nextId := 1 }

/-- A 32-character lowercase-hex key. -/
def keyA : String := "aaaaaaaaaaaaaaaaaaaaaaaaaaaaaaaa"

/-- Another 32-character lowercase-hex key. -/
def keyB : String := "bbbbbbbbbbbbbbbbbbbbbbbbbbbbbbbb"

/-- A row whose download key is `keyA` and whose delete key is `keyB`. -/
def rowC10 : Row := mkRow 1 keyA keyB 10 none

/-- A store holding just `rowC10`. -/
def dbC10 : DB := { rows := [rowC10], nextId := 2 }

/-! Helper lemmas. -/

theorem transformRowToRecord_id (r : Row) : (transformRowToRecord r).id = r.id := rfl

theorem findIdxBy_eq_none {α} (p : α → Bool) (l : List α)
    (h : ∀ a ∈ l, p a = false) : findIdxBy p l = none := by
  induction l with
  | nil => rfl
  | cons a as ih =>
    have ha := h a (List.mem_cons_self a as)
    simp [findIdxBy, ha, ih fun b hb => h b (List.mem_cons_of_mem _ hb)]

theorem findIdxBy_some {α} {p : α → Bool} {l : List α} {j : Nat}
    (h : findIdxBy p l = some j) : ∃ a ∈ l, p a = true := by
  induction l generalizing j with
  | nil => simp [findIdxBy] at h
  | cons a as ih =>
    by_cases hp : p a
    · exact ⟨a, List.mem_cons_self a as, hp⟩
    · rw [findIdxBy, if_neg (by simpa using hp)] at h
      obtain ⟨j', hj', -⟩ := Option.map_eq_some'.mp h
      obtain ⟨b, hb, hpb⟩ := ih hj'
      exact ⟨b, List.mem_cons_of_mem _ hb, hpb⟩

theorem findIdxBy_map {α β} (p : β → Bool) (f : α → β) (l : List α) :
    findIdxBy p (l.map f) = findIdxBy (fun a => p (f a)) l := by
  induction l with
  | nil => rfl
  | cons a as ih => by_cases hp : p (f a) <;> simp [findIdxBy, hp, ih]

theorem findIdxBy_get_of_nodup (l : List Row) (hN : (l.map Row.id).Nodup)
    (j : Nat) (hj : j < l.length) :
    findIdxBy (fun s => s.id == (l.get ⟨j, hj⟩).id) l = some j := by
  induction l generalizing j with
  | nil => exact absurd hj (Nat.not_lt_zero j)
  | cons a as ih =>
    rw [List.map_cons] at hN
    obtain ⟨hna, hN'⟩ := List.nodup_cons.mp hN
    cases j with
    | zero => simp [findIdxBy]
    | succ j' =>
      have hj' : j' < as.length := Nat.lt_of_succ_lt_succ hj
      have hget : (a :: as).get ⟨j' + 1, hj⟩ = as.get ⟨j', hj'⟩ := rfl
      have hmem : (as.get ⟨j', hj'⟩).id ∈ as.map Row.id :=
        List.mem_map_of_mem Row.id (List.get_mem as j' hj')
      have hne : a.id ≠ (as.get ⟨j', hj'⟩).id := fun e => hna (e ▸ hmem)
      rw [hget]
      simp only [findIdxBy]
      rw [if_neg (by simpa using hne), ih hN' j' hj']
      rfl

theorem findIdxBy_filter_none (l : List Row) (p : Row → Bool)
    (hN : (l.map Row.id).Nodup) (r : Row) (hr : r ∈ l) (hp : p r = false) :
    findIdxBy (fun s => s.id == r.id) (l.filter p) = none := by
  refine findIdxBy_eq_none _ _ fun b hb => ?_
  have hbl : b ∈ l := List.mem_of_mem_filter hb
  have hpb : p b = true := List.of_mem_filter hb
  have hne : b.id ≠ r.id := by
    intro e
    have hbr : b = r := List.inj_on_of_nodup_map hN hbl hr e
    rw [hbr, hp] at hpb
    cases hpb
  simpa using hne

theorem updateExpired_eq_of_not_mem (rows : List Row) (rid : Nat) (t : Int)
    (h : ∀ r ∈ rows, r.id ≠ rid) : updateExpired rows rid t = rows := by
  unfold updateExpired
  conv_rhs => rw [← List.map_id rows]
  refine List.map_congr_left fun r hr => ?_
  simp [h r hr]

theorem mem_updateExpired {rows : List Row} {rid : Nat} {t : Int} {r' : Row}
    (h : r' ∈ updateExpired rows rid t) :
    ∃ r ∈ rows, r' = if r.id == rid then { r with expired := some t } else r := by
  unfold updateExpired at h
  obtain ⟨r, hr, he⟩ := List.mem_map.mp h
  exact ⟨r, hr, he.symm⟩

theorem applyExpiry_eq (times : Nat → Int) :
    ∀ (recs : List SchematicRecord), (recs.map SchematicRecord.id).Nodup →
    ∀ (i : Nat) (rows : List Row),
    applyExpiry rows recs times i =
      rows.map (fun r =>
        match findIdxBy (fun rec => rec.id == r.id) recs with
        | some j => { r with expired := some (times (i + j)) }
        | none => r) := by
  intro recs
  induction recs with
  | nil =>
    intro _ i rows
    simp [applyExpiry, findIdxBy]
  | cons rec rest ih =>
    intro hN i rows
    rw [List.map_cons] at hN
    obtain ⟨hrec, hN'⟩ := List.nodup_cons.mp hN
    rw [applyExpiry, ih hN' (i + 1), updateExpired, List.map_map]
    refine List.map_congr_left fun r _ => ?_
    by_cases hid : r.id = rec.id
    · have hb1 : (r.id == rec.id) = true := by simpa using hid
      have hb2 : (rec.id == r.id) = true := by simp [hid]
      have hnone : findIdxBy (fun rec' => rec'.id == r.id) rest = none := by
        refine findIdxBy_eq_none _ _ fun b hb => ?_
        have hbne : b.id ≠ r.id := by
          intro e
          exact hrec (by rw [← hid]; exact e ▸ List.mem_map_of_mem _ hb)
        simpa using hbne
      simp [Function.comp, hb1, hb2, findIdxBy, hnone]
    · have hb1 : (r.id == rec.id) = false := by simpa using hid
      have hb2 : (rec.id == r.id) = false := by
        simpa using fun e => hid e.symm
      cases hfind : findIdxBy (fun rec' => rec'.id == r.id) rest with
      | none => simp [Function.comp, hb1, hb2, findIdxBy, hfind]
      | some j =>
        simp [Function.comp, hb1, hb2, findIdxBy, hfind]
        have he : i + 1 + j = i + (j + 1) := by omega
        rw [he]

theorem expireRecord_not_found (db : DB) (now : Int) (recordId : Nat)
    (h : ∀ r ∈ db.rows, r.id ≠ recordId) :
    expireSchematicRecord db now recordId
      = (db, some "Failed to expire schematic - No schematic exists with passed id") := by
  unfold expireSchematicRecord
  have hfil : db.rows.filter (fun r => r.id == recordId) = [] :=
    List.filter_eq_nil_iff.mpr fun a ha hc => h a ha (by simpa using hc)
  rw [updateExpired_eq_of_not_mem db.rows recordId now h, hfil]
  rfl

theorem expireRecord_found_snd (db : DB) (now : Int) (recordId : Nat)
    (h : ∃ r ∈ db.rows, r.id = recordId) :
    (expireSchematicRecord db now recordId).2 = none := by
  obtain ⟨r0, hr0, hid⟩ := h
  have hmem : r0 ∈ db.rows.filter (fun r => r.id == recordId) :=
    List.mem_filter.mpr ⟨hr0, by simp [hid]⟩
  have hpos : 0 < (db.rows.filter (fun r => r.id == recordId)).length :=
    List.length_pos.mpr (List.ne_nil_of_mem hmem)
  unfold expireSchematicRecord
  have hlt : ¬ ((db.rows.filter (fun r => r.id == recordId)).length < 1) := by omega
  simp [hlt]

theorem expireRecord_mem_updated (db : DB) (now : Int) (recordId : Nat)
    (r : Row) (hr : r ∈ db.rows) (hid : r.id = recordId) :
    { r with expired := some now } ∈ (expireSchematicRecord db now recordId).1.rows := by
  show { r with expired := some now } ∈ updateExpired db.rows recordId now
  unfold updateExpired
  refine List.mem_map.mpr ⟨r, hr, ?_⟩
  simp [hid]

theorem expireSchematicRecords_snd (db : DB) (now : Int) (times : Nat → Int)
    (milliseconds : Int) :
    (expireSchematicRecords db now times milliseconds).2
      = (db.rows.filter (eligibleRow (now - milliseconds))).map transformRowToRecord := by
  unfold expireSchematicRecords
  cases hE :
      ((db.rows.filter (eligibleRow (now - milliseconds))).map transformRowToRecord).isEmpty with
  | true =>
    simp only [hE, if_true]
    exact (List.isEmpty_iff.mp hE).symm
  | false =>
    simp [hE]

theorem expireSchematicRecords_rows (db : DB) (now : Int) (times : Nat → Int)
    (milliseconds : Int) (hN : (db.rows.map Row.id).Nodup) :
    (expireSchematicRecords db now times milliseconds).1.rows
      = db.rows.map (fun r =>
          match findIdxBy (fun s => s.id == r.id)
              (db.rows.filter (eligibleRow (now - milliseconds))) with
          | some j => { r with expired := some (times j) }
          | none => r) := by
  have hsel : ((db.rows.filter (eligibleRow (now - milliseconds))).map Row.id).Nodup :=
    hN.sublist ((List.filter_sublist db.rows).map Row.id)
  unfold expireSchematicRecords
  cases hE :
      ((db.rows.filter (eligibleRow (now - milliseconds))).map transformRowToRecord).isEmpty with
  | true =>
    simp only [hE, if_true]
    have hnil : db.rows.filter (eligibleRow (now - milliseconds)) = [] :=
      List.map_eq_nil_iff.mp (List.isEmpty_iff.mp hE)
    rw [hnil]
    simp [findIdxBy]
  | false =>
    simp only [hE, Bool.false_eq_true, if_false]
    have hids :
        ((db.rows.filter (eligibleRow (now - milliseconds))).map
            transformRowToRecord).map SchematicRecord.id
          = (db.rows.filter (eligibleRow (now - milliseconds))).map Row.id := by
      rw [List.map_map]
      rfl
    have hNrec :
        (((db.rows.filter (eligibleRow (now - milliseconds))).map
            transformRowToRecord).map SchematicRecord.id).Nodup := by
      rw [hids]; exact hsel
    rw [applyExpiry_eq times _ hNrec 0 db.rows]
    refine List.map_congr_left fun r _ => ?_
    rw [findIdxBy_map]
    simp only [transformRowToRecord_id, Nat.zero_add]

theorem generateUniqueKeyLoop_spec (db : DB) (keys : Nat → String) (column : Column) :
    ∀ (fuel iterations : Nat),
      (∃ j, iterations ≤ j ∧ j < iterations + fuel ∧
        generateUniqueKeyLoop db keys column iterations fuel = Except.ok (keys j) ∧
        ∀ r ∈ db.rows, colOf column r ≠ keys j) ∨
      (generateUniqueKeyLoop db keys column iterations fuel
          = Except.error "Failed to generate unique key" ∧
        ∀ k, iterations ≤ k → k < iterations + fuel →
          ∃ r ∈ db.rows, colOf column r = keys k) := by
  intro fuel
  induction fuel with
  | zero =>
    intro iterations
    right
    exact ⟨rfl, fun k hk1 hk2 => absurd hk2 (by omega)⟩
  | succ fuel ih =>
    intro iterations
    cases hE : (db.rows.filter (fun r => colOf column r == keys iterations)).isEmpty with
    | true =>
      left
      refine ⟨iterations, Nat.le_refl _, by omega, ?_, ?_⟩
      · simp [generateUniqueKeyLoop, hE]
      · intro r hr he
        have hmem : r ∈ db.rows.filter (fun r => colOf column r == keys iterations) :=
          List.mem_filter.mpr ⟨hr, by simp [he]⟩
        rw [List.isEmpty_iff.mp hE] at hmem
        cases hmem
    | false =>
      have hcol : ∃ r ∈ db.rows, colOf column r = keys iterations := by
        cases hfl : db.rows.filter (fun r => colOf column r == keys iterations) with
        | nil => rw [hfl] at hE; cases hE
        | cons b bs =>
          have hb : b ∈ db.rows.filter (fun r => colOf column r == keys iterations) := by
            rw [hfl]; exact List.mem_cons_self b bs
          exact ⟨b, List.mem_of_mem_filter hb, by simpa using List.of_mem_filter hb⟩
      have hstep : generateUniqueKeyLoop db keys column iterations (fuel + 1)
          = generateUniqueKeyLoop db keys column (iterations + 1) fuel := by
        simp [generateUniqueKeyLoop, hE]
      rcases ih (iterations + 1) with ⟨j, hj1, hj2, hok, hdist⟩ | ⟨herr, hall⟩
      · left
        exact ⟨j, by omega, by omega, by rw [hstep]; exact hok, hdist⟩
      · right
        refine ⟨by rw [hstep]; exact herr, fun k hk1 hk2 => ?_⟩
        rcases Nat.eq_or_lt_of_le hk1 with heq | hlt
        · exact heq ▸ hcol
        · exact hall k hlt (by omega)

/-! The claims. -/

/-- C1: the spec says lookup by download key or delete key returns exactly the
stored record's fields.  The code is wrong: `transformRowToRecord` copies
`row.pos1` into the record's `pos2` (`pos2: row.pos1`), so for a stored row
whose `pos1` and `pos2` differ, both lookups return a record whose `pos2` is
the stored `pos1`, not the stored `pos2`. -/
theorem spec_C1 :
    rowC1.pos1 = some "1,2,3" ∧ rowC1.pos2 = some "4,5,6" ∧
    getSchematicRecordByDownloadKey dbC1 "d" = Except.ok (transformRowToRecord rowC1) ∧
    getSchematicRecordByDeleteKey dbC1 "k" = Except.ok (transformRowToRecord rowC1) ∧
    (transformRowToRecord rowC1).pos2 = some "1,2,3" ∧
    (transformRowToRecord rowC1).pos2 ≠ rowC1.pos2 := by decide

/-- C2 counterexample: a record whose `expired` field is already set
(`rowExp.expired = some 5`) is changed again by `expireRecord` on its id: the
operation succeeds and overwrites `expired` with the new current time, so the
field does not stay at its first value. -/
theorem spec_C2_cex :
    rowExp.expired = some 5 ∧
    (expireSchematicRecord dbC2 10 3).2 = none ∧
    (expireSchematicRecord dbC2 10 3).1.rows = [{ rowExp with expired := some 10 }] ∧
    ({ rowExp with expired := some 10 }).expired ≠ rowExp.expired := by decide

/-- C2 (amended): once `expired` is set, the bulk expiry sweep never changes
that record again (its `SELECT` requires `expired IS NULL`), but
`expireRecord` on the record's id unconditionally overwrites `expired` with
the current time. -/
theorem spec_C2 (db : DB) (now : Int) (times : Nat → Int) (milliseconds : Int)
    (hN : (db.rows.map Row.id).Nodup)
    (i : Nat) (hi : i < db.rows.length)
    (hexp : (db.rows.get ⟨i, hi⟩).expired ≠ none) :
    (∃ hi' : i < (expireSchematicRecords db now times milliseconds).1.rows.length,
      (expireSchematicRecords db now times milliseconds).1.rows.get ⟨i, hi'⟩
        = db.rows.get ⟨i, hi⟩) ∧
    { db.rows.get ⟨i, hi⟩ with expired := some now } ∈
      (expireSchematicRecord db now (db.rows.get ⟨i, hi⟩).id).1.rows := by
  constructor
  · rw [expireSchematicRecords_rows db now times milliseconds hN]
    have hi' : i < (db.rows.map (fun r =>
        match findIdxBy (fun s => s.id == r.id)
            (db.rows.filter (eligibleRow (now - milliseconds))) with
        | some j => { r with expired := some (times j) }
        | none => r)).length := by
      rw [List.length_map]; exact hi
    refine ⟨hi', ?_⟩
    rw [List.get_eq_getElem, List.get_eq_getElem, List.getElem_map]
    have hel : eligibleRow (now - milliseconds) db.rows[i] = false := by
      have hisN : (db.rows[i]).expired.isNone = false := by
        cases hre : (db.rows[i]).expired with
        | none => exact absurd hre (by simpa using hexp)
        | some v => rfl
      simp [eligibleRow, hisN]
    rw [findIdxBy_filter_none db.rows (eligibleRow (now - milliseconds)) hN
      db.rows[i] (List.getElem_mem hi) hel]
  · exact expireRecord_mem_updated db now (db.rows.get ⟨i, hi⟩).id
      (db.rows.get ⟨i, hi⟩) (List.get_mem db.rows i hi) rfl

/-- C2 witness: in the three-row store `dbW` the already-expired third row is
left untouched by a sweep, and `expireRecord` on its id overwrites its
`expired` timestamp. -/
theorem spec_C2_witness :
    (∃ hi' : 2 < (expireSchematicRecords dbW 110 timesW 100).1.rows.length,
      (expireSchematicRecords dbW 110 timesW 100).1.rows.get ⟨2, hi'⟩
        = dbW.rows.get ⟨2, by decide⟩) ∧
    { dbW.rows.get ⟨2, by decide⟩ with expired := some (110 : Int) } ∈
      (expireSchematicRecord dbW 110 (dbW.rows.get ⟨2, by decide⟩).id).1.rows :=
  spec_C2 dbW 110 timesW 100 (by decide) 2 (by decide) (by decide)

/-- C3 counterexample: `storeRecord` returns the input record verbatim
(`return record;`), not the row as stored: on an empty store at time 50, the
inserted row gets the store-assigned id 1 and `last_accessed` 50, while the
returned record still carries the caller's id 7 and lastAccessed 99. -/
theorem spec_C3_cex :
    (storeSchematicRecord dbEmpty 50 recC3).2 = recC3 ∧
    (storeSchematicRecord dbEmpty 50 recC3).1.rows.map Row.id = [1] ∧
    recC3.id = 7 ∧ (7 : Nat) ≠ 1 ∧
    (storeSchematicRecord dbEmpty 50 recC3).1.rows.map Row.last_accessed = [50] ∧
    recC3.last_accessed = some 99 ∧ some (99 : Int) ≠ some (50 : Int) := by decide

/-- C3 (amended): `storeRecord` inserts a new row whose `last_accessed` is the
current time, whose id is the store-assigned auto-increment value, whose
`expired` is unset and whose other columns come from the input record; it
returns the input record unchanged, without the store-assigned id or the
`lastAccessed` just set. -/
theorem spec_C3 (db : DB) (now : Int) (record : SchematicRecord) :
    (storeSchematicRecord db now record).2 = record ∧
    ∃ row : Row,
      (storeSchematicRecord db now record).1.rows = db.rows ++ [row] ∧
      (storeSchematicRecord db now record).1.nextId = db.nextId + 1 ∧
      row.id = db.nextId ∧ row.last_accessed = now ∧ row.expired = none ∧
      row.filename = record.fileName ∧ row.download_key = record.downloadKey ∧
      row.delete_key = record.deleteKey ∧ row.uploaded_by = record.uploader ∧
      row.schem_type = record.schem_type ∧ row.pos1 = record.pos1 ∧
      row.pos2 = record.pos2 :=
  ⟨rfl, _, rfl, rfl, rfl, rfl, rfl, rfl, rfl, rfl, rfl, rfl, rfl, rfl⟩

/-- C4: the sweep computes the cutoff `now - d`, returns exactly the
unexpired records with `last_accessed` at or before the cutoff, marks each of
them expired with the current time of its update (`times j` for the j-th
selected row), and leaves every other row untouched (for rows outside the
selection the lookup of an update index finds none, so the map leaves them
unchanged). -/
theorem spec_C4 (db : DB) (now : Int) (times : Nat → Int) (milliseconds : Int)
    (hN : (db.rows.map Row.id).Nodup) :
    (expireSchematicRecords db now times milliseconds).2
      = (db.rows.filter (eligibleRow (now - milliseconds))).map transformRowToRecord ∧
    (expireSchematicRecords db now times milliseconds).1.rows
      = db.rows.map (fun r =>
          match findIdxBy (fun s => s.id == r.id)
              (db.rows.filter (eligibleRow (now - milliseconds))) with
          | some j => { r with expired := some (times j) }
          | none => r) ∧
    ∀ r ∈ db.rows, eligibleRow (now - milliseconds) r = false →
      findIdxBy (fun s => s.id == r.id)
        (db.rows.filter (eligibleRow (now - milliseconds))) = none :=
  ⟨expireSchematicRecords_snd db now times milliseconds,
   expireSchematicRecords_rows db now times milliseconds hN,
   fun r hr hp => findIdxBy_filter_none db.rows _ hN r hr hp⟩

/-- C4 witness: with cutoff 10, only the old unexpired row of `dbW` is
selected, expired with the first clock read, and returned; the recent and
the already-expired rows are untouched. -/
theorem spec_C4_witness :
    (expireSchematicRecords dbW 110 timesW 100).2 = [transformRowToRecord rowOld] ∧
    (expireSchematicRecords dbW 110 timesW 100).1.rows
      = [{ rowOld with expired := some 200 }, rowNew, rowExp] := by
  have h := spec_C4 dbW 110 timesW 100 (by decide)
  exact ⟨by rw [h.1]; decide, by rw [h.2.1]; decide⟩

/-- C5: for any candidate stream from the 32-character lowercase-hex
generator, `generateDeletionKey` and `generateDownloadKey` either return a
32-character lowercase-hex key distinct from every existing key in their own
column, or fail with the generation-exhausted error when all `maxIterations`
candidates collide with existing keys of that column. -/
theorem spec_C5 (db : DB) (keys : Nat → String) (maxIterations : Nat)
    (hkeys : ∀ i, isHexKey32 (keys i)) :
    ((∃ k, generateDeletionKey db keys maxIterations = Except.ok k ∧ isHexKey32 k ∧
        ∀ r ∈ db.rows, r.delete_key ≠ k) ∨
      (generateDeletionKey db keys maxIterations
          = Except.error "Failed to generate unique key" ∧
        ∀ i < maxIterations, ∃ r ∈ db.rows, r.delete_key = keys i)) ∧
    ((∃ k, generateDownloadKey db keys maxIterations = Except.ok k ∧ isHexKey32 k ∧
        ∀ r ∈ db.rows, r.download_key ≠ k) ∨
      (generateDownloadKey db keys maxIterations
          = Except.error "Failed to generate unique key" ∧
        ∀ i < maxIterations, ∃ r ∈ db.rows, r.download_key = keys i)) := by
  constructor
  · rcases generateUniqueKeyLoop_spec db keys Column.delete_key maxIterations 0 with
      ⟨j, -, -, hok, hdist⟩ | ⟨herr, hall⟩
    · exact Or.inl ⟨keys j, hok, hkeys j, hdist⟩
    · exact Or.inr ⟨herr, fun i hi => hall i (Nat.zero_le i) (by omega)⟩
  · rcases generateUniqueKeyLoop_spec db keys Column.download_key maxIterations 0 with
      ⟨j, -, -, hok, hdist⟩ | ⟨herr, hall⟩
    · exact Or.inl ⟨keys j, hok, hkeys j, hdist⟩
    · exact Or.inr ⟨herr, fun i hi => hall i (Nat.zero_le i) (by omega)⟩

/-- C5 witness: against `dbC10` (delete key `keyB`, download key `keyA`) with
the constant candidate stream `keyA`, deletion-key generation succeeds while
download-key generation exhausts its single iteration. -/
theorem spec_C5_witness :
    ((∃ k, generateDeletionKey dbC10 (fun _ => keyA) 1 = Except.ok k ∧ isHexKey32 k ∧
        ∀ r ∈ dbC10.rows, r.delete_key ≠ k) ∨
      (generateDeletionKey dbC10 (fun _ => keyA) 1
          = Except.error "Failed to generate unique key" ∧
        ∀ i < 1, ∃ r ∈ dbC10.rows, r.delete_key = keyA)) ∧
    ((∃ k, generateDownloadKey dbC10 (fun _ => keyA) 1 = Except.ok k ∧ isHexKey32 k ∧
        ∀ r ∈ dbC10.rows, r.download_key ≠ k) ∨
      (generateDownloadKey dbC10 (fun _ => keyA) 1
          = Except.error "Failed to generate unique key" ∧
        ∀ i < 1, ∃ r ∈ dbC10.rows, r.download_key = keyA)) :=
  spec_C5 dbC10 (fun _ => keyA) 1 (fun _ => (by decide : isHexKey32 keyA))

/-- C6: `expireRecord` on an id matching no row returns the not-found error
and leaves the store exactly as it was; on an id with a matching row it
succeeds and sets that row's `expired` to the current time. -/
theorem spec_C6 (db : DB) (now : Int) (recordId : Nat) :
    ((∀ r ∈ db.rows, r.id ≠ recordId) →
      expireSchematicRecord db now recordId
        = (db, some "Failed to expire schematic - No schematic exists with passed id")) ∧
    ((∃ r ∈ db.rows, r.id = recordId) →
      (expireSchematicRecord db now recordId).2 = none ∧
      ∀ r ∈ db.rows, r.id = recordId →
        { r with expired := some now } ∈ (expireSchematicRecord db now recordId).1.rows) :=
  ⟨fun h => expireRecord_not_found db now recordId h,
   fun h => ⟨expireRecord_found_snd db now recordId h,
     fun r hr hid => expireRecord_mem_updated db now recordId r hr hid⟩⟩

/-- C6 witness: on the one-row store `dbC2` (row id 3), expiring id 7 fails
with the not-found error and returns the store unchanged, while expiring id 3
succeeds. -/
theorem spec_C6_witness :
    expireSchematicRecord dbC2 10 7
      = (dbC2, some "Failed to expire schematic - No schematic exists with passed id") ∧
    (expireSchematicRecord dbC2 10 3).2 = none :=
  ⟨(spec_C6 dbC2 10 7).1 (by decide),
   ((spec_C6 dbC2 10 3).2 ⟨rowExp, by decide, rfl⟩).1⟩

/-- C7: after a successful `expireRecord(i)` the record with id `i` no longer
appears in `getAllUnexpiredRecords` but still appears in `getAllRecords`. -/
theorem spec_C7 (db : DB) (now : Int) (i : Nat)
    (hex : ∃ r ∈ db.rows, r.id = i) :
    (expireSchematicRecord db now i).2 = none ∧
    (∀ rec ∈ getAllUnexpiredRecords (expireSchematicRecord db now i).1, rec.id ≠ i) ∧
    ∃ rec ∈ getAllRecords (expireSchematicRecord db now i).1, rec.id = i := by
  refine ⟨expireRecord_found_snd db now i hex, ?_, ?_⟩
  · intro rec hrec hid
    obtain ⟨r', hr'f, hre⟩ := List.mem_map.mp hrec
    have hr'mem : r' ∈ (expireSchematicRecord db now i).1.rows :=
      List.mem_of_mem_filter hr'f
    have hr'none : r'.expired.isNone = true := by
      simpa using List.of_mem_filter hr'f
    obtain ⟨r, hr, he⟩ := mem_updateExpired hr'mem
    by_cases hcase : r.id = i
    · rw [he, if_pos (by simpa using hcase)] at hr'none
      cases hr'none
    · rw [he, if_neg (by simpa using hcase)] at hre
      exact hcase (by rw [← hre] at hid; exact hid)
  · obtain ⟨r0, hr0, hid0⟩ := hex
    refine ⟨transformRowToRecord { r0 with expired := some now }, ?_, hid0⟩
    exact List.mem_map_of_mem transformRowToRecord
      (expireRecord_mem_updated db now i r0 hr0 hid0)

/-- C7 witness: expiring the first row of `dbW` (id 1) succeeds. -/
theorem spec_C7_witness : (expireSchematicRecord dbW 110 1).2 = none :=
  (spec_C7 dbW 110 1 ⟨rowOld, by decide, rfl⟩).1

/-- C8: when no unexpired row has `last_accessed` at or before the cutoff,
the sweep returns the empty list and the store is entirely unchanged. -/
theorem spec_C8 (db : DB) (now : Int) (times : Nat → Int) (milliseconds : Int)
    (h : ∀ r ∈ db.rows, eligibleRow (now - milliseconds) r = false) :
    expireSchematicRecords db now times milliseconds = (db, []) := by
  have hfil : db.rows.filter (eligibleRow (now - milliseconds)) = [] :=
    List.filter_eq_nil_iff.mpr fun a ha hc => by rw [h a ha] at hc; cases hc
  simp [expireSchematicRecords, hfil]

/-- C8 witness: `dbC2` contains only an already-expired row, so a sweep
returns the empty list and changes nothing. -/
theorem spec_C8_witness : expireSchematicRecords dbC2 110 timesW 100 = (dbC2, []) :=
  spec_C8 dbC2 110 timesW 100 (by decide)

/-- C9: the records a sweep returns are the pre-update snapshots (their
`expired` field is still unset), while the j-th selected row's stored copy is
marked with `times j`, the clock read of its own update, so one sweep can
stamp distinct timestamps on distinct rows. -/
theorem spec_C9 (db : DB) (now : Int) (times : Nat → Int) (milliseconds : Int)
    (hN : (db.rows.map Row.id).Nodup) :
    (∀ rec ∈ (expireSchematicRecords db now times milliseconds).2, rec.expired = none) ∧
    ∀ (j : Nat) (hj : j < (db.rows.filter (eligibleRow (now - milliseconds))).length),
      { (db.rows.filter (eligibleRow (now - milliseconds))).get ⟨j, hj⟩ with
          expired := some (times j) } ∈
        (expireSchematicRecords db now times milliseconds).1.rows := by
  constructor
  · intro rec hrec
    rw [expireSchematicRecords_snd db now times milliseconds] at hrec
    obtain ⟨s, hsf, hse⟩ := List.mem_map.mp hrec
    have hsel : eligibleRow (now - milliseconds) s = true := List.of_mem_filter hsf
    have hnone : s.expired = none := by
      have : s.expired.isNone = true := by
        rcases Bool.and_eq_true_iff.mp hsel with ⟨-, h2⟩
        exact h2
      simpa [Option.isNone_iff_eq_none] using this
    rw [← hse]
    simp [transformRowToRecord, hnone, jsTruthyInt]
  · intro j hj
    rw [expireSchematicRecords_rows db now times milliseconds hN]
    have hsmem : (db.rows.filter (eligibleRow (now - milliseconds))).get ⟨j, hj⟩ ∈ db.rows :=
      List.mem_of_mem_filter (List.get_mem _ j hj)
    have hselN : ((db.rows.filter (eligibleRow (now - milliseconds))).map Row.id).Nodup :=
      hN.sublist ((List.filter_sublist db.rows).map Row.id)
    have hfind : findIdxBy (fun s => s.id ==
          ((db.rows.filter (eligibleRow (now - milliseconds))).get ⟨j, hj⟩).id)
        (db.rows.filter (eligibleRow (now - milliseconds))) = some j :=
      findIdxBy_get_of_nodup _ hselN j hj
    have hmm := List.mem_map_of_mem (fun r =>
        match findIdxBy (fun s => s.id == r.id)
            (db.rows.filter (eligibleRow (now - milliseconds))) with
        | some jj => { r with expired := some (times jj) }
        | none => r) hsmem
    simp only [hfind] at hmm
    exact hmm

/-- C9 witness: the sweep on `dbW` stores `expired = 200` (the first clock
read) on the selected old row while the returned snapshot listed it with
`expired` still unset. -/
theorem spec_C9_witness :
    { rowOld with expired := some (200 : Int) } ∈
      (expireSchematicRecords dbW 110 timesW 100).1.rows := by
  have h := (spec_C9 dbW 110 timesW 100 (by decide)).2 0 (by decide)
  exact h

/-- C10: uniqueness checking is per column only: with every candidate equal
to the existing download key `keyA`, `generateDeletionKey` happily returns
`keyA` (it only checks the `delete_key` column), and symmetrically
`generateDownloadKey` returns the existing delete key `keyB`. -/
theorem spec_C10 :
    rowC10 ∈ dbC10.rows ∧ rowC10.download_key = keyA ∧ rowC10.delete_key = keyB ∧
    generateDeletionKey dbC10 (fun _ => keyA) 20 = Except.ok keyA ∧
    generateDownloadKey dbC10 (fun _ => keyB) 20 = Except.ok keyB := by decide
